import Mathlib

/-!
# Verification development for the ai-manager migration validator

Shallow embedding of the cross-implementation data-integrity and
encryption-compatibility validator:

* `src/tests/data/migration_validator.py` — schema validation, per-entity
  integrity checks, and the full-validation summary (embedded faithfully,
  including the per-entity `try/except` behaviour, as functions over an
  in-memory `Db`).
* The authenticated-token codec (Fernet) is not part of the repository's
  sources (only its caller, `src/tests/unit/data/migration_validator.py`,
  is); it is modelled from the spec in the `Codec` section below.

Python's nullable columns become `Option` fields; Python exceptions that the
scripts catch become `Except String` results (the caught exception is the
`error` branch, mirroring the returned `{'error': ..., 'success': False}`
dictionary).
-/

namespace AiManager

/-! ## Structured issues

Each constructor mirrors one f-string message appended to an `issues` list in
`src/tests/data/migration_validator.py`. -/

/-- One validation issue, as appended to a per-entity `issues` list. -/
inductive Issue where
  /-- `f"ID {id}: name字段为空"` -/
  | emptyName (id : Int)
  /-- `f"ID {id}: url字段为空"` -/
  | emptyUrl (id : Int)
  /-- `f"ID {id}: url格式无效"` -/
  | invalidUrlFormat (id : Int)
  /-- `f"ID {id}: enabled字段值无效"` -/
  | invalidEnabled (id : Int)
  /-- `f"ID {id}: max_tokens超出合理范围"` -/
  | maxTokensOutOfRange (id : Int)
  /-- `f"ID {id}: temperature超出合理范围"` -/
  | temperatureOutOfRange (id : Int)
  /-- `f"多个启用供应商: {enabled_count}个"` -/
  | multipleEnabled (count : Nat)
  /-- `f"ID {id}: description字段为空"` -/
  | emptyDescription (id : Int)
  /-- `f"ID {id}: command字段为空"` -/
  | emptyCommand (id : Int)
  /-- `f"ID {id}: key字段为空"` -/
  | emptyKey (id : Int)
  /-- `f"ID {id}: value字段为空"` -/
  | emptyValue (id : Int)
  /-- `f"Key '{key}' 重复: {count} 次"` -/
  | duplicateKey (key : String) (count : Nat)
  /-- `f"缺少必要字段: {field}"` (schema validation) -/
  | missingField (field : String)
  deriving DecidableEq, Repr

/-! ## Python string semantics used by the checks -/

/-- Python `str.strip()` on the character list: drop whitespace at both ends. -/
def stripChars (cs : List Char) : List Char :=
  ((cs.dropWhile Char.isWhitespace).reverse.dropWhile Char.isWhitespace).reverse

/-- Python `not v or v.strip() == ''` on a nullable string column:
true when the value is NULL, the empty string, or whitespace-only. -/
def pyStrBlank : Option String → Bool
  | none => true
  | some s => s.data.isEmpty || (stripChars s.data).isEmpty

/-- `pre` is a prefix of `cs` (Python `str.startswith` on char lists). -/
def startsWithChars : List Char → List Char → Bool
  | [], _ => true
  | _ :: _, [] => false
  | p :: ps, c :: cs => p == c && startsWithChars ps cs

/-- Python `url.startswith(('http://', 'https://'))`. -/
def pyStartsWithHttp (u : String) : Bool :=
  startsWithChars "http://".data u.data || startsWithChars "https://".data u.data

/-- Python `enabled not in [0, 1]` is the negation of this test
(`None` is not in the list, so NULL fails the domain check). -/
def enabledValid (e : Option Int) : Bool :=
  e == some 0 || e == some 1

/-! ## Row types

One structure per `SELECT` in `validate_*` of
`src/tests/data/migration_validator.py`; every selected column is nullable in
SQLite, hence `Option`. Lists of rows stand for the query results in
`ORDER BY id` order. -/

/-- `SELECT id, name, url, max_tokens, temperature, model, enabled,
description, timeout, retry_count FROM claude_providers`. -/
structure ClaudeRow where
  id : Int
  name : Option String
  url : Option String
  max_tokens : Option Int
  temperature : Option Rat
  model : Option String
  enabled : Option Int
  description : Option String
  timeout : Option Int
  retry_count : Option Int
  deriving DecidableEq, Repr

/-- `SELECT id, name, url, type, enabled FROM codex_providers`. -/
structure CodexRow where
  id : Int
  name : Option String
  url : Option String
  type : Option String
  enabled : Option Int
  deriving DecidableEq, Repr

/-- `SELECT id, name, description FROM agent_guides`. -/
structure AgentRow where
  id : Int
  name : Option String
  description : Option String
  deriving DecidableEq, Repr

/-- `SELECT id, name, url, command, args, enabled FROM mcp_servers`. -/
structure McpRow where
  id : Int
  name : Option String
  url : Option String
  command : Option String
  args : Option String
  enabled : Option Int
  deriving DecidableEq, Repr

/-- `SELECT id, key, value, type FROM common_configs`. -/
structure ConfigRow where
  id : Int
  key : Option String
  value : Option String
  type : Option String
  deriving DecidableEq, Repr

/-- Per-entity report dictionary
`{'total_count': …, ('enabled_count': …,) 'issues': …, 'success': …}`. -/
structure IntegrityReport where
  total_count : Nat
  enabled_count : Option Nat
  issues : List Issue
  success : Bool
  deriving DecidableEq, Repr

/-! ## validate_claude_providers (lines 168–215) -/

/-- Issues contributed by one claude_providers row. When `url` is NULL the
source evaluates `provider['url'].startswith(...)` on `None`, raising
`AttributeError`; the enclosing `except` turns that into the error result,
which discards every issue accumulated so far. -/
def claudeRowIssues (r : ClaudeRow) : Except String (List Issue) :=
  let i1 : List Issue := if pyStrBlank r.name then [.emptyName r.id] else []
  let i2 : List Issue := if pyStrBlank r.url then [.emptyUrl r.id] else []
  match r.url with
  | none => .error "AttributeError: NoneType object has no attribute startswith"
  | some u =>
    let i3 : List Issue := if ¬ pyStartsWithHttp u then [.invalidUrlFormat r.id] else []
    let i4 : List Issue := if ¬ enabledValid r.enabled then [.invalidEnabled r.id] else []
    let i5 : List Issue :=
      match r.max_tokens with
      | none => []
      | some mt => if mt ≠ 0 ∧ (mt < 1 ∨ mt > 100000) then [.maxTokensOutOfRange r.id] else []
    let i6 : List Issue :=
      match r.temperature with
      | none => []
      | some t => if t ≠ 0 ∧ (t < 0 ∨ t > 2) then [.temperatureOutOfRange r.id] else []
    .ok (i1 ++ i2 ++ i3 ++ i4 ++ i5 ++ i6)

/-- The `for provider in providers` loop: accumulate per-row issues, aborting
the whole loop (and losing the accumulated list) when a row raises. -/
def claudeIssues : List ClaudeRow → Except String (List Issue)
  | [] => .ok []
  | r :: rs =>
    match claudeRowIssues r with
    | .error e => .error e
    | .ok i =>
      match claudeIssues rs with
      | .error e => .error e
      | .ok rest => .ok (i ++ rest)

/-- `len([p for p in providers if p['enabled'] == 1])`. -/
def enabledCount (rows : List ClaudeRow) : Nat :=
  (rows.filter (fun p => p.enabled == some 1)).length

/-- `validate_claude_providers`, as a function of the fetched rows. -/
def validate_claude_records (rows : List ClaudeRow) : Except String IntegrityReport :=
  match claudeIssues rows with
  | .error e => .error e
  | .ok issues =>
    let issues := issues ++
      (if enabledCount rows > 1 then [Issue.multipleEnabled (enabledCount rows)] else [])
    .ok { total_count := rows.length, enabled_count := some (enabledCount rows),
          issues := issues, success := issues.isEmpty }

/-! ## validate_codex_providers (lines 217–250) -/

/-- Issues contributed by one codex_providers row. Same NULL-url
`AttributeError` as the claude check; note there is no enabled-count rule. -/
def codexRowIssues (r : CodexRow) : Except String (List Issue) :=
  let i1 : List Issue := if pyStrBlank r.name then [.emptyName r.id] else []
  let i2 : List Issue := if pyStrBlank r.url then [.emptyUrl r.id] else []
  match r.url with
  | none => .error "AttributeError: NoneType object has no attribute startswith"
  | some u =>
    let i3 : List Issue := if ¬ pyStartsWithHttp u then [.invalidUrlFormat r.id] else []
    let i4 : List Issue := if ¬ enabledValid r.enabled then [.invalidEnabled r.id] else []
    .ok (i1 ++ i2 ++ i3 ++ i4)

/-- The codex row loop. -/
def codexIssues : List CodexRow → Except String (List Issue)
  | [] => .ok []
  | r :: rs =>
    match codexRowIssues r with
    | .error e => .error e
    | .ok i =>
      match codexIssues rs with
      | .error e => .error e
      | .ok rest => .ok (i ++ rest)

/-- `validate_codex_providers`, as a function of the fetched rows. -/
def validate_codex_records (rows : List CodexRow) : Except String IntegrityReport :=
  match codexIssues rows with
  | .error e => .error e
  | .ok issues =>
    .ok { total_count := rows.length, enabled_count := none,
          issues := issues, success := issues.isEmpty }

/-! ## validate_agent_guides (lines 252–279) -/

/-- Issues contributed by one agent_guides row (never raises). -/
def agentRowIssues (r : AgentRow) : List Issue :=
  (if pyStrBlank r.name then [.emptyName r.id] else []) ++
  (if pyStrBlank r.description then [.emptyDescription r.id] else [])

/-- `validate_agent_guides`, as a function of the fetched rows. -/
def validate_agent_records (rows : List AgentRow) : Except String IntegrityReport :=
  let issues := (rows.map agentRowIssues).flatten
  .ok { total_count := rows.length, enabled_count := none,
        issues := issues, success := issues.isEmpty }

/-! ## validate_mcp_servers (lines 281–311) -/

/-- Issues contributed by one mcp_servers row (never raises). -/
def mcpRowIssues (r : McpRow) : List Issue :=
  (if pyStrBlank r.name then [.emptyName r.id] else []) ++
  (if pyStrBlank r.command then [.emptyCommand r.id] else []) ++
  (if ¬ enabledValid r.enabled then [.invalidEnabled r.id] else [])

/-- `validate_mcp_servers`, as a function of the fetched rows. -/
def validate_mcp_records (rows : List McpRow) : Except String IntegrityReport :=
  let issues := (rows.map mcpRowIssues).flatten
  .ok { total_count := rows.length, enabled_count := none,
        issues := issues, success := issues.isEmpty }

/-! ## validate_common_configs (lines 313–346) -/

/-- `SELECT COUNT(*) FROM common_configs WHERE key = ?` for one record's key;
a NULL parameter matches no row (SQL `key = NULL` is never true). -/
def keyCount (configs : List ConfigRow) : Option String → Nat
  | none => 0
  | some k => (configs.filter (fun c => c.key == some k)).length

/-- Issues contributed by one common_configs row; the duplicate-key count is
taken over the whole collection, once per record that carries the key. -/
def configRowIssues (configs : List ConfigRow) (c : ConfigRow) : List Issue :=
  (if pyStrBlank c.key then [.emptyKey c.id] else []) ++
  (if pyStrBlank c.value then [.emptyValue c.id] else []) ++
  (match c.key with
   | none => []
   | some k =>
     if keyCount configs (some k) > 1 then [.duplicateKey k (keyCount configs (some k))] else [])

/-- `validate_common_configs`, as a function of the fetched rows. -/
def validate_config_records (configs : List ConfigRow) : Except String IntegrityReport :=
  let issues := (configs.map (configRowIssues configs)).flatten
  .ok { total_count := configs.length, enabled_count := none,
        issues := issues, success := issues.isEmpty }

/-! ## The database, schema validation and the full run

`Db` is the in-memory image of the SQLite store: per table, the column-name
list that `PRAGMA table_info` reports, and the row list that the `SELECT`s
return. Every statement the validator issues is a read (`PRAGMA table_info`,
`SELECT COUNT(*)`, `SELECT …`); each is embedded as a state-threading
primitive `Db → answer × Db` returning the store unchanged, so that
`run_full_validation` exposes its final store for the frame claim. -/

/-- The SQLite database visible to the validator. -/
structure Db where
  claude_schema : List String
  codex_schema : List String
  agent_schema : List String
  mcp_schema : List String
  config_schema : List String
  claude_providers : List ClaudeRow
  codex_providers : List CodexRow
  agent_guides : List AgentRow
  mcp_servers : List McpRow
  common_configs : List ConfigRow
  deriving DecidableEq, Repr

/-- The five table names iterated by `validate_table_schemas`. -/
def tables : List String :=
  ["claude_providers", "codex_providers", "agent_guides", "mcp_servers", "common_configs"]

/-- `get_required_fields` (lines 119–144). -/
def required_fields (t : String) : List String :=
  if t = "claude_providers" then
    ["id", "name", "url", "token", "max_tokens", "temperature", "model", "enabled",
     "description", "timeout", "retry_count", "created_at", "updated_at"]
  else if t = "codex_providers" then
    ["id", "name", "url", "token", "type", "enabled", "created_at", "updated_at"]
  else if t = "agent_guides" then
    ["id", "name", "description", "created_at", "updated_at"]
  else if t = "mcp_servers" then
    ["id", "name", "url", "command", "args", "enabled", "description", "created_at", "updated_at"]
  else if t = "common_configs" then
    ["id", "key", "value", "type", "description", "created_at", "updated_at"]
  else []

/-- `get_table_schema` (`PRAGMA table_info`): the column names of a table,
`[]` when the table does not exist (the source catches the error and
returns an empty dict). A pure read. -/
def get_table_schema (d : Db) (t : String) : List String :=
  if t = "claude_providers" then d.claude_schema
  else if t = "codex_providers" then d.codex_schema
  else if t = "agent_guides" then d.agent_schema
  else if t = "mcp_servers" then d.mcp_schema
  else if t = "common_configs" then d.config_schema
  else []

/-- `get_table_row_count` (`SELECT COUNT(*)`): 0 for an unknown table
(the source catches the error and returns 0). A pure read. -/
def get_table_row_count (d : Db) (t : String) : Nat :=
  if t = "claude_providers" then d.claude_providers.length
  else if t = "codex_providers" then d.codex_providers.length
  else if t = "agent_guides" then d.agent_guides.length
  else if t = "mcp_servers" then d.mcp_servers.length
  else if t = "common_configs" then d.common_configs.length
  else 0

/-- Per-table entry of the `schema_results` dictionary (lines 92–104). -/
structure SchemaResult where
  table_exists : Bool
  columns : Nat
  row_count : Nat
  schema : List String
  issues : List Issue
  deriving DecidableEq, Repr

/-- The loop body of `validate_table_schemas` for one table. -/
def validate_one_table (d : Db) (t : String) : SchemaResult :=
  let schema := get_table_schema d t
  { table_exists := decide (0 < schema.length),
    columns := schema.length,
    row_count := get_table_row_count d t,
    schema := schema,
    issues := ((required_fields t).filter (fun f => ¬ schema.contains f)).map Issue.missingField }

/-- `validate_table_schemas` (lines 75–117), threading the store through the
two reads it performs per table. -/
def validate_table_schemas (d : Db) : List (String × SchemaResult) × Db :=
  (tables.map (fun t => (t, validate_one_table d t)), d)

/-- `SELECT … FROM claude_providers ORDER BY id`: a pure read. -/
def select_claude (d : Db) : List ClaudeRow × Db := (d.claude_providers, d)

/-- `SELECT … FROM codex_providers ORDER BY id`: a pure read. -/
def select_codex (d : Db) : List CodexRow × Db := (d.codex_providers, d)

/-- `SELECT … FROM agent_guides ORDER BY id`: a pure read. -/
def select_agent (d : Db) : List AgentRow × Db := (d.agent_guides, d)

/-- `SELECT … FROM mcp_servers ORDER BY id`: a pure read. -/
def select_mcp (d : Db) : List McpRow × Db := (d.mcp_servers, d)

/-- `SELECT … FROM common_configs ORDER BY id`: a pure read. -/
def select_config (d : Db) : List ConfigRow × Db := (d.common_configs, d)

/-- `validate_claude_providers` against the store. -/
def validate_claude_providers (d : Db) : Except String IntegrityReport × Db :=
  let (rows, d1) := select_claude d
  (validate_claude_records rows, d1)

/-- `validate_codex_providers` against the store. -/
def validate_codex_providers (d : Db) : Except String IntegrityReport × Db :=
  let (rows, d1) := select_codex d
  (validate_codex_records rows, d1)

/-- `validate_agent_guides` against the store. -/
def validate_agent_guides (d : Db) : Except String IntegrityReport × Db :=
  let (rows, d1) := select_agent d
  (validate_agent_records rows, d1)

/-- `validate_mcp_servers` against the store. -/
def validate_mcp_servers (d : Db) : Except String IntegrityReport × Db :=
  let (rows, d1) := select_mcp d
  (validate_mcp_records rows, d1)

/-- `validate_common_configs` against the store. -/
def validate_common_configs (d : Db) : Except String IntegrityReport × Db :=
  let (rows, d1) := select_config d
  (validate_config_records rows, d1)

/-- `validate_data_integrity` (lines 146–166): the five entity checks in
source order. -/
def validate_data_integrity (d : Db) : List (String × Except String IntegrityReport) × Db :=
  let (rc, d1) := validate_claude_providers d
  let (rx, d2) := validate_codex_providers d1
  let (ra, d3) := validate_agent_guides d2
  let (rm, d4) := validate_mcp_servers d3
  let (rg, d5) := validate_common_configs d4
  ([("claude_providers", rc), ("codex_providers", rx), ("agent_guides", ra),
    ("mcp_servers", rm), ("common_configs", rg)], d5)

/-- `t.get('success', False)`: the error dictionary carries
`'success': False`. -/
def integritySuccess : Except String IntegrityReport → Bool
  | .ok r => r.success
  | .error _ => false

/-- `generate_sample_encrypted_data` (lines 348–364): a fixed dictionary,
returned unencrypted. -/
def generate_sample_encrypted_data : List (String × String) :=
  [("simple_text", "Hello, World!"),
   ("chinese_text", "你好世界，这是中文测试数据"),
   ("api_token", "sk-1234567890abcdef1234567890abcdef12345678"),
   ("json_data",
    "\x7b\"name\": \"测试供应商\", \"url\": \"https://api.openai.com\", \"token\": \"sk-test-token\", \"model\": \"gpt-4\", \"enabled\": true\x7d")]

/-- The `summary` dictionary built by `run_full_validation` (lines 388–416). -/
structure Summary where
  total_tables : Nat
  valid_tables : Nat
  schema_success : Bool
  total_checks : Nat
  passed_checks : Nat
  integrity_success : Bool
  sample_data : List (String × String)
  overall_success : Bool
  schema_results : List (String × SchemaResult)
  integrity_results : List (String × Except String IntegrityReport)
  deriving Repr

/-- `run_full_validation` (lines 366–429): schema pass, integrity pass, and
the aggregation fold, threading the store. -/
def run_full_validation (d : Db) : Summary × Db :=
  let (schema_results, d1) := validate_table_schemas d
  let (integrity_results, d2) := validate_data_integrity d1
  let total_tables := schema_results.length
  let valid_tables := (schema_results.filter (fun p => p.2.table_exists)).length
  let total_checks := integrity_results.length
  let passed_checks := (integrity_results.filter (fun p => integritySuccess p.2)).length
  ({ total_tables := total_tables,
     valid_tables := valid_tables,
     schema_success := decide (valid_tables = total_tables),
     total_checks := total_checks,
     passed_checks := passed_checks,
     integrity_success := decide (passed_checks = total_checks),
     sample_data := generate_sample_encrypted_data,
     overall_success := decide (valid_tables = total_tables) && decide (passed_checks = total_checks),
     schema_results := schema_results,
     integrity_results := integrity_results }, d2)

/-! ## Codec

The authenticated-token codec (spec §4.1) is not among the repository's
source files — `src/tests/unit/data/migration_validator.py` only calls the
external Fernet implementation — so this whole section is modelled from the
spec: a version byte, an 8-byte timestamp, a 16-byte IV, block-cipher
ciphertext of the padded plaintext, and a MAC over version+timestamp+IV+
ciphertext, with the key split into a signing half and an encryption half.
The block cipher and the MAC are concrete invertible stand-ins for AES-CBC
and HMAC (their cryptographic internals are outside the spec's contract). -/

/-- Modelled from the spec: a key is a 32-byte value (the base64 derivation
of the 44-character secret is the caller's concern); bytes are `Nat < 256`. -/
abbrev Key := List Nat

/-- Modelled from the spec: the signing half of the key (MAC key). -/
def signingKey (k : Key) : List Nat := k.take 16

/-- Modelled from the spec: the encryption half of the key. -/
def encryptionKey (k : Key) : List Nat := k.drop 16

/-- Modelled from the spec: the keystream byte at position `i`, derived from
the encryption half of the key and the 16-byte IV (stand-in for the AES-CBC
cipher state; missing from the sources). -/
def keystream (ek iv : List Nat) (i : Nat) : Nat :=
  ek.getD (i % 16) 0 + iv.getD (i % 16) 0

/-- Modelled from the spec: block-cipher encryption of the (padded) plaintext
under the encryption key and IV, byte by byte modulo 256. -/
def encStream (ek iv : List Nat) : Nat → List Nat → List Nat
  | _, [] => []
  | i, b :: bs => (b + keystream ek iv i) % 256 :: encStream ek iv (i + 1) bs

/-- Modelled from the spec: the inverse block-cipher transformation. -/
def decStream (ek iv : List Nat) : Nat → List Nat → List Nat
  | _, [] => []
  | i, c :: cs => (c + (256 - keystream ek iv i % 256)) % 256 :: decStream ek iv (i + 1) cs

/-- Modelled from the spec: PKCS#7 padding to the 16-byte block size. -/
def pkcs7pad (bs : List Nat) : List Nat :=
  bs ++ List.replicate (16 - bs.length % 16) (16 - bs.length % 16)

/-- Modelled from the spec: remove and check the padding after decryption;
`none` is the malformed-padding failure. -/
def pkcs7unpad (bs : List Nat) : Option (List Nat) :=
  match bs.getLast? with
  | none => none
  | some n =>
    if 1 ≤ n ∧ n ≤ 16 ∧ n ≤ bs.length ∧ (bs.drop (bs.length - n)).all (fun b => b == n)
    then some (bs.take (bs.length - n))
    else none

/-- Modelled from the spec: the authenticated data, version byte first, then
timestamp, IV and ciphertext. -/
def tokenAuthData (version : Nat) (ts iv ct : List Nat) : List Nat :=
  version :: (ts ++ iv ++ ct)

/-- Modelled from the spec: the message-authentication tag over the
authenticated data, keyed by the signing half (injective stand-in for
HMAC-SHA256, which is missing from the sources). -/
def macTag (sk data : List Nat) : List Nat := sk ++ data

/-- Modelled from the spec: the token envelope
(version + timestamp + IV + ciphertext + tag); its storage form is the
URL-safe base64 rendering of the concatenated fields. -/
structure Token where
  version : Nat
  timestamp : List Nat
  iv : List Nat
  ciphertext : List Nat
  tag : List Nat
  deriving DecidableEq, Repr

/-- Modelled from the spec: `encode(plaintext, key)`; the fresh random IV and
the encryption timestamp are the isolated impurities, passed as arguments. -/
def encode (p : List Nat) (k : Key) (iv ts : List Nat) : Token :=
  let ct := encStream (encryptionKey k) iv 0 (pkcs7pad p)
  { version := 128, timestamp := ts, iv := iv, ciphertext := ct,
    tag := macTag (signingKey k) (tokenAuthData 128 ts iv ct) }

/-- Modelled from the spec: the decode error taxonomy (§7 `CryptoError`). -/
inductive DecodeError where
  | invalidVersion
  | invalidSignature
  | invalidPadding
  deriving DecidableEq, Repr

/-- Modelled from the spec: `decode(token, key)` — reject an unknown version
byte, verify the tag before touching the ciphertext, then decrypt and check
the padding. The timestamp is parsed but no expiry is enforced. -/
def decode (t : Token) (k : Key) : Except DecodeError (List Nat) :=
  if t.version ≠ 128 then .error .invalidVersion
  else if t.tag ≠ macTag (signingKey k) (tokenAuthData t.version t.timestamp t.iv t.ciphertext)
  then .error .invalidSignature
  else
    match pkcs7unpad (decStream (encryptionKey k) t.iv 0 t.ciphertext) with
    | none => .error .invalidPadding
    | some p => .ok p

/-- Modelled from the spec: `KeyExhausted` — no candidate key decrypted. -/
inductive FallbackError where
  | keyExhausted
  deriving DecidableEq, Repr

/-- Modelled from the spec: decode-with-fallback over the ordered candidate
key list, returning the plaintext and the index of the key that matched. -/
def decodeWithFallback (keys : List Key) (t : Token) : Except FallbackError (List Nat × Nat) :=
  match keys with
  | [] => .error .keyExhausted
  | k :: rest =>
    match decode t k with
    | .ok p => .ok (p, 0)
    | .error _ =>
      match decodeWithFallback rest t with
      | .ok pi => .ok (pi.1, pi.2 + 1)
      | .error e => .error e

/-- `decode` failed (either variant of `CryptoError`). -/
def decodeFailed : Except DecodeError (List Nat) → Bool
  | .error _ => true
  | .ok _ => false

/-! ### Round-trip machinery -/

/-- One byte through the cipher and back. -/
theorem byte_roundtrip (b k : Nat) (hb : b < 256) :
    ((b + k) % 256 + (256 - k % 256)) % 256 = b := by
  have hk : k % 256 < 256 := Nat.mod_lt _ (by norm_num)
  have h1 : (b + k) % 256 = (b + k % 256) % 256 := by
    rw [Nat.add_mod b k, Nat.mod_eq_of_lt hb]
  rw [h1]
  rcases Nat.lt_or_ge (b + k % 256) 256 with h | h
  · rw [Nat.mod_eq_of_lt h]
    have h2 : b + k % 256 + (256 - k % 256) = b + 256 := by omega
    rw [h2, Nat.add_mod_right, Nat.mod_eq_of_lt hb]
  · have h2 : (b + k % 256) % 256 = b + k % 256 - 256 := by
      rw [Nat.mod_eq_sub_mod h]
      exact Nat.mod_eq_of_lt (by omega)
    rw [h2]
    have h3 : b + k % 256 - 256 + (256 - k % 256) = b := by omega
    rw [h3, Nat.mod_eq_of_lt hb]

/-- The stream cipher is inverted by its decryption direction on byte lists. -/
theorem decStream_encStream (ek iv : List Nat) (bs : List Nat)
    (h : ∀ b ∈ bs, b < 256) :
    ∀ i, decStream ek iv i (encStream ek iv i bs) = bs := by
  induction bs with
  | nil => intro i; rfl
  | cons b rest ih =>
    intro i
    have hb : b < 256 := h b (List.mem_cons_self _ _)
    simp only [encStream, decStream, List.cons.injEq]
    exact ⟨byte_roundtrip b (keystream ek iv i) hb,
           ih (fun x hx => h x (List.mem_cons_of_mem _ hx)) (i + 1)⟩

/-- Unpadding recovers exactly the original byte list. -/
theorem pkcs7unpad_pad (p : List Nat) : pkcs7unpad (pkcs7pad p) = some p := by
  have hm : p.length % 16 < 16 := Nat.mod_lt _ (by norm_num)
  set n := 16 - p.length % 16 with hn
  have h1 : 1 ≤ n := by omega
  have h16 : n ≤ 16 := by omega
  have hlen : (pkcs7pad p).length = p.length + n := by
    simp [pkcs7pad, ← hn]
  have hsplit0 : List.replicate n n = List.replicate (n - 1) n ++ [n] := by
    nth_rewrite 1 [show n = (n - 1) + 1 from by omega]
    rw [List.replicate_succ']
  have hsplit : pkcs7pad p = (p ++ List.replicate (n - 1) n) ++ [n] := by
    rw [pkcs7pad, ← hn, hsplit0, ← List.append_assoc]
  have hlast : (pkcs7pad p).getLast? = some n := by
    rw [hsplit]
    exact List.getLast?_concat _
  have hdrop : (pkcs7pad p).drop ((pkcs7pad p).length - n) = List.replicate n n := by
    rw [hlen, pkcs7pad, ← hn]
    have heq : p.length + n - n = p.length := by omega
    rw [heq]
    exact List.drop_left p _
  have htake : (pkcs7pad p).take ((pkcs7pad p).length - n) = p := by
    rw [hlen, pkcs7pad, ← hn]
    have heq : p.length + n - n = p.length := by omega
    rw [heq]
    exact List.take_left p _
  have hall : ((pkcs7pad p).drop ((pkcs7pad p).length - n)).all (fun b => b == n) = true := by
    rw [hdrop]
    simp only [List.all_eq_true, beq_iff_eq]
    intro x hx
    exact List.eq_of_mem_replicate hx
  have hle : n ≤ (pkcs7pad p).length := by omega
  rw [pkcs7unpad, hlast]
  simp [h1, h16, hle, hall, htake]

/-- Decoding a token under its encoding key returns the plaintext
(shared round-trip core for C1 and C4). -/
theorem decode_encode (p : List Nat) (k : Key) (iv ts : List Nat)
    (hp : ∀ b ∈ p, b < 256) :
    decode (encode p k iv ts) k = .ok p := by
  have hm : p.length % 16 < 16 := Nat.mod_lt _ (by norm_num)
  have hpad : ∀ b ∈ pkcs7pad p, b < 256 := by
    intro b hb
    rcases List.mem_append.mp hb with h | h
    · exact hp b h
    · have hb' := List.eq_of_mem_replicate h
      omega
  simp only [decode, encode]
  rw [if_neg (by simp)]
  rw [if_neg (by simp)]
  rw [decStream_encStream _ _ _ hpad 0, pkcs7unpad_pad]

/-! ## Concrete sample material (for closed instantiations) -/

/-- A valid 32-byte key. -/
def sampleKeyA : Key := List.replicate 32 1

/-- A second valid 32-byte key, differing from `sampleKeyA` in its signing half. -/
def sampleKeyB : Key := List.replicate 32 2

/-- A 16-byte IV. -/
def sampleIv : List Nat := List.replicate 16 5

/-- An 8-byte timestamp. -/
def sampleTs : List Nat := List.replicate 8 0

/-! ## C1 — encode/decode round trip -/

/-- C1: for every plaintext byte string P (the empty string, long strings and
multi-byte UTF-8 strings are just particular byte lists) and every valid
32-byte key K, decoding the token produced by encoding P under K with the
same K returns exactly P. -/
theorem c1_roundtrip (P : List Nat) (K : Key) (iv ts : List Nat)
    (hP : ∀ b ∈ P, b < 256) (_hK : K.length = 32) (_hKb : ∀ b ∈ K, b < 256)
    (_hiv : iv.length = 16) (_hts : ts.length = 8) :
    decode (encode P K iv ts) K = .ok P :=
  decode_encode P K iv ts hP

/-- C1 witness: the empty byte string and the UTF-8 bytes of a non-ASCII
character both round-trip under a concrete valid key. -/
theorem c1_roundtrip_witness :
    decode (encode [] sampleKeyA sampleIv sampleTs) sampleKeyA = .ok []
    ∧ decode (encode [228, 189, 160] sampleKeyA sampleIv sampleTs) sampleKeyA
        = .ok [228, 189, 160] :=
  ⟨c1_roundtrip [] sampleKeyA sampleIv sampleTs (by decide) (by decide) (by decide)
     (by decide) (by decide),
   c1_roundtrip [228, 189, 160] sampleKeyA sampleIv sampleTs (by decide) (by decide)
     (by decide) (by decide) (by decide)⟩

/-! ## C4 — decode-with-fallback over the candidate key list -/

/-- C4: decode-with-fallback tries the candidate keys in order; for a token
encoded under a key that appears anywhere in the list it returns a plaintext
together with the index of the key that succeeded (the returned plaintext is
the decryption under that key), and when no candidate key decrypts the token
it fails with `KeyExhausted` instead of raising. -/
theorem c4_fallback :
    (∀ (keys : List Key) (P : List Nat) (K : Key) (iv ts : List Nat),
       (∀ b ∈ P, b < 256) → K ∈ keys →
       ∃ q i, ∃ h : i < keys.length,
         decodeWithFallback keys (encode P K iv ts) = .ok (q, i) ∧
         decode (encode P K iv ts) (keys.get ⟨i, h⟩) = .ok q)
    ∧ (∀ (keys : List Key) (t : Token),
       (∀ k ∈ keys, decodeFailed (decode t k) = true) →
       decodeWithFallback keys t = .error .keyExhausted) := by
  constructor
  · intro keys P K iv ts hP hK
    induction keys with
    | nil => cases hK
    | cons k rest ih =>
      cases hdec : decode (encode P K iv ts) k with
      | ok q =>
        exact ⟨q, 0, Nat.succ_pos _, by simp [decodeWithFallback, hdec], by simpa using hdec⟩
      | error e =>
        have hK' : K ∈ rest := by
          rcases List.mem_cons.mp hK with rfl | h
          · rw [decode_encode P K iv ts hP] at hdec
            cases hdec
          · exact h
        obtain ⟨q, i, h, h1, h2⟩ := ih hK'
        refine ⟨q, i + 1, Nat.succ_lt_succ h, ?_, ?_⟩
        · simp [decodeWithFallback, hdec, h1]
        · simpa using h2
  · intro keys t hfail
    induction keys with
    | nil => rfl
    | cons k rest ih =>
      have hk : decodeFailed (decode t k) = true := hfail k (List.mem_cons_self _ _)
      cases hdec : decode t k with
      | ok q => rw [hdec] at hk; cases hk
      | error e =>
        have := ih (fun x hx => hfail x (List.mem_cons_of_mem _ hx))
        simp [decodeWithFallback, hdec, this]

/-- C4 witness: with candidates `[A, B]` a token encoded under B decodes via
fallback (at index 1); with candidates `[A]` only, the same token exhausts
the key list. -/
theorem c4_fallback_witness :
    (∃ q i, ∃ h : i < ([sampleKeyA, sampleKeyB] : List Key).length,
       decodeWithFallback [sampleKeyA, sampleKeyB]
           (encode [104, 105] sampleKeyB sampleIv sampleTs) = .ok (q, i) ∧
       decode (encode [104, 105] sampleKeyB sampleIv sampleTs)
           (([sampleKeyA, sampleKeyB] : List Key).get ⟨i, h⟩) = .ok q)
    ∧ decodeWithFallback [sampleKeyA] (encode [104, 105] sampleKeyB sampleIv sampleTs)
        = .error .keyExhausted :=
  ⟨c4_fallback.1 [sampleKeyA, sampleKeyB] [104, 105] sampleKeyB sampleIv sampleTs
     (by decide) (by simp),
   c4_fallback.2 [sampleKeyA] _ (by
     intro k hk
     rw [List.mem_singleton.mp hk]
     rfl)⟩

/-! ## Helper lemmas about the per-row issue lists -/

/-- The issue is the claude singleton-constraint issue. -/
def isMultipleEnabled : Issue → Bool
  | .multipleEnabled _ => true
  | _ => false

/-- Number of `MultipleEnabled` issues in a report's issue list. -/
def countMultipleEnabled (issues : List Issue) : Nat :=
  issues.countP isMultipleEnabled

/-- Membership in an `if c then [y] else []` list pins down the element. -/
theorem mem_if_singleton {c : Prop} [Decidable c] {x y : Issue}
    (h : x ∈ (if c then [y] else [])) : x = y := by
  split at h
  · simpa using h
  · simp at h

/-- A claude row that completes contributes issues, none of them
`MultipleEnabled`. -/
theorem claudeRowIssues_not_multi (r : ClaudeRow) (l : List Issue)
    (h : claudeRowIssues r = .ok l) : ∀ n, Issue.multipleEnabled n ∉ l := by
  intro n hn
  cases hu : r.url with
  | none => simp [claudeRowIssues, hu] at h
  | some u =>
    simp only [claudeRowIssues, hu, Except.ok.injEq] at h
    rw [← h] at hn
    simp only [List.mem_append] at hn
    rcases hn with ((((h1 | h2) | h3) | h4) | h5) | h6
    · exact absurd (mem_if_singleton h1) (by simp)
    · exact absurd (mem_if_singleton h2) (by simp)
    · exact absurd (mem_if_singleton h3) (by simp)
    · exact absurd (mem_if_singleton h4) (by simp)
    · rcases hmt : r.max_tokens with _ | mt
      · simp only [hmt] at h5
        simp at h5
      · simp only [hmt] at h5
        exact absurd (mem_if_singleton h5) (by simp)
    · rcases hte : r.temperature with _ | t
      · simp only [hte] at h6
        simp at h6
      · simp only [hte] at h6
        exact absurd (mem_if_singleton h6) (by simp)

/-- A codex row's issues never include `MultipleEnabled` (the codex check has
no singleton rule at all). -/
theorem codexRowIssues_not_multi (r : CodexRow) (l : List Issue)
    (h : codexRowIssues r = .ok l) : ∀ n, Issue.multipleEnabled n ∉ l := by
  intro n hn
  cases hu : r.url with
  | none => simp [codexRowIssues, hu] at h
  | some u =>
    simp only [codexRowIssues, hu, Except.ok.injEq] at h
    rw [← h] at hn
    simp only [List.mem_append] at hn
    rcases hn with ((h1 | h2) | h3) | h4
    · exact absurd (mem_if_singleton h1) (by simp)
    · exact absurd (mem_if_singleton h2) (by simp)
    · exact absurd (mem_if_singleton h3) (by simp)
    · exact absurd (mem_if_singleton h4) (by simp)

/-- A claude row with a non-NULL url completes (does not raise). -/
theorem claudeRowIssues_ok (r : ClaudeRow) (h : r.url ≠ none) :
    ∃ l, claudeRowIssues r = .ok l := by
  cases hres : claudeRowIssues r with
  | ok l => exact ⟨l, rfl⟩
  | error e =>
    cases hu : r.url with
    | none => exact absurd hu h
    | some u => simp [claudeRowIssues, hu] at hres

/-- A codex row with a non-NULL url completes (does not raise). -/
theorem codexRowIssues_ok (r : CodexRow) (h : r.url ≠ none) :
    ∃ l, codexRowIssues r = .ok l := by
  cases hres : codexRowIssues r with
  | ok l => exact ⟨l, rfl⟩
  | error e =>
    cases hu : r.url with
    | none => exact absurd hu h
    | some u => simp [codexRowIssues, hu] at hres

/-- The claude loop completes when every row's url is non-NULL, and its
accumulated list has no `MultipleEnabled` issue. -/
theorem claudeIssues_ok (rows : List ClaudeRow) (h : ∀ r ∈ rows, r.url ≠ none) :
    ∃ L, claudeIssues rows = .ok L ∧ countMultipleEnabled L = 0 := by
  induction rows with
  | nil => exact ⟨[], rfl, rfl⟩
  | cons r rs ih =>
    obtain ⟨l, hl⟩ := claudeRowIssues_ok r (h r (List.mem_cons_self _ _))
    obtain ⟨L, hL, hc⟩ := ih (fun x hx => h x (List.mem_cons_of_mem _ hx))
    refine ⟨l ++ L, ?_, ?_⟩
    · simp [claudeIssues, hl, hL]
    · rw [countMultipleEnabled, List.countP_append]
      have h0 : l.countP isMultipleEnabled = 0 := by
        rw [List.countP_eq_zero]
        intro a ha hisa
        cases a <;> simp [isMultipleEnabled] at hisa
        case multipleEnabled n => exact claudeRowIssues_not_multi r l hl n ha
      rw [countMultipleEnabled] at hc
      omega

/-- The loops for rows that never raise: a row whose per-row issues are `ok []`
contributes nothing. -/
theorem claudeIssues_clean (rows : List ClaudeRow)
    (h : ∀ r ∈ rows, claudeRowIssues r = .ok []) : claudeIssues rows = .ok [] := by
  induction rows with
  | nil => rfl
  | cons r rs ih =>
    have hr := h r (List.mem_cons_self _ _)
    have hs := ih (fun x hx => h x (List.mem_cons_of_mem _ hx))
    simp [claudeIssues, hr, hs]

/-- Accumulation: every issue a member row contributes is in the loop's
accumulated list. -/
theorem claudeIssues_mem (rows : List ClaudeRow) (r : ClaudeRow)
    (li L : List Issue) (hrows : claudeIssues rows = .ok L) (hr : r ∈ rows)
    (hli : claudeRowIssues r = .ok li) : ∀ i ∈ li, i ∈ L := by
  induction rows generalizing L with
  | nil => cases hr
  | cons a rs ih =>
    cases ha : claudeRowIssues a with
    | error e => simp [claudeIssues, ha] at hrows
    | ok la =>
      cases hs : claudeIssues rs with
      | error e => simp [claudeIssues, ha, hs] at hrows
      | ok Ls =>
        have hL : la ++ Ls = L := by simpa [claudeIssues, ha, hs] using hrows
        rcases List.mem_cons.mp hr with rfl | hr'
        · rw [ha] at hli
          cases hli
          exact fun i hi => hL ▸ List.mem_append_left _ hi
        · exact fun i hi => hL ▸ List.mem_append_right _ (ih Ls hs hr' i hi)

/-- Codex loop analogue of `claudeIssues_ok`. -/
theorem codexIssues_ok (rows : List CodexRow) (h : ∀ r ∈ rows, r.url ≠ none) :
    ∃ L, codexIssues rows = .ok L := by
  induction rows with
  | nil => exact ⟨[], rfl⟩
  | cons r rs ih =>
    obtain ⟨l, hl⟩ := codexRowIssues_ok r (h r (List.mem_cons_self _ _))
    obtain ⟨L, hL⟩ := ih (fun x hx => h x (List.mem_cons_of_mem _ hx))
    exact ⟨l ++ L, by simp [codexIssues, hl, hL]⟩

/-- Codex loop accumulation. -/
theorem codexIssues_mem (rows : List CodexRow) (r : CodexRow)
    (li L : List Issue) (hrows : codexIssues rows = .ok L) (hr : r ∈ rows)
    (hli : codexRowIssues r = .ok li) : ∀ i ∈ li, i ∈ L := by
  induction rows generalizing L with
  | nil => cases hr
  | cons a rs ih =>
    cases ha : codexRowIssues a with
    | error e => simp [codexIssues, ha] at hrows
    | ok la =>
      cases hs : codexIssues rs with
      | error e => simp [codexIssues, ha, hs] at hrows
      | ok Ls =>
        have hL : la ++ Ls = L := by simpa [codexIssues, ha, hs] using hrows
        rcases List.mem_cons.mp hr with rfl | hr'
        · rw [ha] at hli
          cases hli
          exact fun i hi => hL ▸ List.mem_append_left _ hi
        · exact fun i hi => hL ▸ List.mem_append_right _ (ih Ls hs hr' i hi)

/-- The codex loop's accumulated list has no `MultipleEnabled` issue. -/
theorem codexIssues_not_multi (rows : List CodexRow) (L : List Issue)
    (hrows : codexIssues rows = .ok L) : countMultipleEnabled L = 0 := by
  induction rows generalizing L with
  | nil =>
    cases hrows
    rfl
  | cons a rs ih =>
    cases ha : codexRowIssues a with
    | error e => simp [codexIssues, ha] at hrows
    | ok la =>
      cases hs : codexIssues rs with
      | error e => simp [codexIssues, ha, hs] at hrows
      | ok Ls =>
        have hL : la ++ Ls = L := by simpa [codexIssues, ha, hs] using hrows
        rw [← hL, countMultipleEnabled, List.countP_append]
        have h0 : la.countP isMultipleEnabled = 0 := by
          rw [List.countP_eq_zero]
          intro x hx hisx
          cases x <;> simp [isMultipleEnabled] at hisx
          case multipleEnabled n => exact codexRowIssues_not_multi a la ha n hx
        have h1 := ih Ls hs
        rw [countMultipleEnabled] at h1
        omega

/-- A list with a member is not empty. -/
theorem isEmpty_false_of_mem {α : Type} {x : α} {l : List α} (h : x ∈ l) :
    l.isEmpty = false := by
  cases l
  · cases h
  · rfl

/-- A well-formed claude row usable as a base for concrete collections. -/
def baseClaudeRow : ClaudeRow :=
  { id := 1, name := some "Test Claude Provider", url := some "https://api.anthropic.com",
    max_tokens := none, temperature := none, model := none, enabled := some 1,
    description := none, timeout := some 30000, retry_count := none }

/-- A well-formed codex row usable as a base for concrete collections. -/
def baseCodexRow : CodexRow :=
  { id := 1, name := some "Test Codex Provider", url := some "https://api.openai.com",
    type := some "public_welfare", enabled := some 1 }

/-! ## C2 — singleton (MultipleEnabled) invariant -/

/-- C2 counterexample: a CodexProvider collection with two otherwise-valid
`enabled=1` records yields no `MultipleEnabled` issue and `success = true` —
the codex integrity check has no singleton rule, contradicting the claim
that each provider collection flags more than one enabled record. -/
theorem c2_counterexample :
    validate_codex_records
      [baseCodexRow, { baseCodexRow with id := 2, name := some "OpenAI Official" }] =
    .ok { total_count := 2, enabled_count := none, issues := [], success := true } := by
  rfl

/-- C2 (amended): the singleton constraint is enforced only by the
ClaudeProvider check — more than one enabled claude record yields exactly one
`MultipleEnabled(enabled_count)` issue and `success = false`, and at most one
enabled record with all row-level invariants satisfied yields `success = true`
— while the CodexProvider check never emits a `MultipleEnabled` issue. -/
theorem c2_amended :
    (∀ rows : List ClaudeRow, (∀ r ∈ rows, r.url ≠ none) → 1 < enabledCount rows →
       ∃ rep, validate_claude_records rows = .ok rep ∧
         Issue.multipleEnabled (enabledCount rows) ∈ rep.issues ∧
         countMultipleEnabled rep.issues = 1 ∧ rep.success = false)
    ∧ (∀ rows : List ClaudeRow, enabledCount rows ≤ 1 →
       (∀ r ∈ rows, claudeRowIssues r = .ok []) →
       ∃ rep, validate_claude_records rows = .ok rep ∧
         rep.issues = [] ∧ rep.success = true)
    ∧ (∀ (rows : List CodexRow) (rep : IntegrityReport),
       validate_codex_records rows = .ok rep → countMultipleEnabled rep.issues = 0) := by
  refine ⟨?_, ?_, ?_⟩
  · intro rows hurl hec
    obtain ⟨L, hL, hcnt⟩ := claudeIssues_ok rows hurl
    have hval : validate_claude_records rows =
        .ok { total_count := rows.length, enabled_count := some (enabledCount rows),
              issues := L ++ [Issue.multipleEnabled (enabledCount rows)],
              success := (L ++ [Issue.multipleEnabled (enabledCount rows)]).isEmpty } := by
      simp [validate_claude_records, hL, hec]
    refine ⟨_, hval, ?_, ?_, ?_⟩
    · exact List.mem_append_right L (List.mem_singleton.mpr rfl)
    · rw [countMultipleEnabled] at hcnt ⊢
      rw [List.countP_append, hcnt]
      simp [isMultipleEnabled, List.countP_cons]
    · exact isEmpty_false_of_mem (List.mem_append_right L (List.mem_singleton.mpr rfl))
  · intro rows hec hclean
    have hL := claudeIssues_clean rows hclean
    have hnot : ¬ (enabledCount rows > 1) := by omega
    have hval : validate_claude_records rows =
        .ok { total_count := rows.length, enabled_count := some (enabledCount rows),
              issues := [], success := true } := by
      simp [validate_claude_records, hL, hnot]
    exact ⟨_, hval, rfl, rfl⟩
  · intro rows rep hrep
    cases hL : codexIssues rows with
    | error e => simp [validate_codex_records, hL] at hrep
    | ok L =>
      have hval : validate_codex_records rows =
          .ok { total_count := rows.length, enabled_count := none,
                issues := L, success := L.isEmpty } := by
        simp [validate_codex_records, hL]
      rw [hval] at hrep
      injection hrep with h
      subst h
      exact codexIssues_not_multi rows L hL

/-- C2 witness: two enabled claude rows give one `MultipleEnabled(2)` and
failure; a single clean claude row gives success; a two-enabled codex
collection's report has no `MultipleEnabled` issue. -/
theorem c2_amended_witness :
    (∃ rep, validate_claude_records
        [baseClaudeRow, { baseClaudeRow with id := 2, name := some "Anthropic Official" }] =
        .ok rep ∧
      Issue.multipleEnabled 2 ∈ rep.issues ∧
      countMultipleEnabled rep.issues = 1 ∧ rep.success = false)
    ∧ (∃ rep, validate_claude_records [baseClaudeRow] = .ok rep ∧
        rep.issues = [] ∧ rep.success = true)
    ∧ countMultipleEnabled
        ({ total_count := 2, enabled_count := none, issues := [], success := true }
          : IntegrityReport).issues = 0 :=
  ⟨c2_amended.1 [baseClaudeRow, { baseClaudeRow with id := 2, name := some "Anthropic Official" }]
     (by decide) (by decide),
   c2_amended.2.1 [baseClaudeRow] (by decide)
     (by
       intro r hr
       rw [List.mem_singleton.mp hr]
       rfl),
   c2_amended.2.2 [baseCodexRow, { baseCodexRow with id := 2, name := some "OpenAI Official" }]
     { total_count := 2, enabled_count := none, issues := [], success := true } (by rfl)⟩

/-! ## C3 — CommonConfig key uniqueness -/

/-- Two records sharing the key `"version"`, as seeded by
`create_test_data.py` would be if run twice. -/
def sampleConfigRows : List ConfigRow :=
  [{ id := 1, key := some "version", value := some "2.0.0", type := some "system" },
   { id := 2, key := some "version", value := some "2.1.0", type := some "system" }]

/-- C3: every key held by at least two CommonConfig records yields a
`DuplicateKey(key, count)` issue carrying the key and its occurrence count,
and the report fails. -/
theorem c3_duplicate_key (configs : List ConfigRow) (k : String)
    (h2 : 2 ≤ keyCount configs (some k)) :
    ∃ rep, validate_config_records configs = .ok rep ∧
      Issue.duplicateKey k (keyCount configs (some k)) ∈ rep.issues ∧
      rep.success = false := by
  have hfil : 0 < (configs.filter (fun c => c.key == some k)).length := by
    rw [keyCount] at h2
    omega
  obtain ⟨c, hc⟩ := List.exists_mem_of_ne_nil _ (List.length_pos.mp hfil)
  have hcmem : c ∈ configs := (List.mem_filter.mp hc).1
  have hckey : c.key = some k := by
    have hbeq := (List.mem_filter.mp hc).2
    simpa using hbeq
  have hgt : keyCount configs (some k) > 1 := by omega
  have hissue : Issue.duplicateKey k (keyCount configs (some k)) ∈ configRowIssues configs c := by
    simp only [configRowIssues, hckey]
    simp [hgt]
  have hmem : Issue.duplicateKey k (keyCount configs (some k)) ∈
      (configs.map (configRowIssues configs)).flatten :=
    List.mem_flatten.mpr ⟨_, List.mem_map_of_mem _ hcmem, hissue⟩
  exact ⟨_, rfl, hmem, isEmpty_false_of_mem hmem⟩

/-- C3 witness: a collection with two `key="version"` records produces
`DuplicateKey("version", 2)` and fails. -/
theorem c3_duplicate_key_witness :
    ∃ rep, validate_config_records sampleConfigRows = .ok rep ∧
      Issue.duplicateKey "version" 2 ∈ rep.issues ∧
      rep.success = false :=
  c3_duplicate_key sampleConfigRows "version" (by decide)

/-! ## C5 — fail-soft accumulation -/

/-- C5 counterexample: a ClaudeProvider collection whose first record has a
NULL url makes the per-entity check return the caught-exception error result
instead of a report; the second record's empty-name violation is never
accumulated. -/
theorem c5_counterexample :
    validate_claude_records
      [{ baseClaudeRow with url := none },
       { baseClaudeRow with id := 2, name := some "" }] =
    .error "AttributeError: NoneType object has no attribute startswith" := by
  rfl

/-- C5 (amended): each per-entity check accumulates one issue per violated
rule across all records with `success = issues.isEmpty` — unconditionally for
the agent-guide, MCP-server and common-config checks, and for the provider
checks provided no record has a NULL url; a NULL url makes the provider check
return the error result (still surfaced as data, with `success` read as
false) in place of the accumulated report. -/
theorem c5_amended :
    (∀ rows : List ClaudeRow, (∀ r ∈ rows, r.url ≠ none) →
       ∃ rep, validate_claude_records rows = .ok rep ∧
         rep.success = rep.issues.isEmpty ∧
         ∀ r ∈ rows, ∀ li, claudeRowIssues r = .ok li → ∀ i ∈ li, i ∈ rep.issues)
    ∧ (∀ rows : List CodexRow, (∀ r ∈ rows, r.url ≠ none) →
       ∃ rep, validate_codex_records rows = .ok rep ∧
         rep.success = rep.issues.isEmpty ∧
         ∀ r ∈ rows, ∀ li, codexRowIssues r = .ok li → ∀ i ∈ li, i ∈ rep.issues)
    ∧ (∀ rows : List AgentRow,
       ∃ rep, validate_agent_records rows = .ok rep ∧
         rep.success = rep.issues.isEmpty ∧
         ∀ r ∈ rows, ∀ i ∈ agentRowIssues r, i ∈ rep.issues)
    ∧ (∀ rows : List McpRow,
       ∃ rep, validate_mcp_records rows = .ok rep ∧
         rep.success = rep.issues.isEmpty ∧
         ∀ r ∈ rows, ∀ i ∈ mcpRowIssues r, i ∈ rep.issues)
    ∧ (∀ rows : List ConfigRow,
       ∃ rep, validate_config_records rows = .ok rep ∧
         rep.success = rep.issues.isEmpty ∧
         ∀ r ∈ rows, ∀ i ∈ configRowIssues rows r, i ∈ rep.issues) := by
  refine ⟨?_, ?_, ?_, ?_, ?_⟩
  · intro rows hurl
    obtain ⟨L, hL, _⟩ := claudeIssues_ok rows hurl
    have hval : validate_claude_records rows =
        .ok { total_count := rows.length, enabled_count := some (enabledCount rows),
              issues := L ++ (if enabledCount rows > 1
                then [Issue.multipleEnabled (enabledCount rows)] else []),
              success := (L ++ (if enabledCount rows > 1
                then [Issue.multipleEnabled (enabledCount rows)] else [])).isEmpty } := by
      simp [validate_claude_records, hL]
    refine ⟨_, hval, rfl, ?_⟩
    intro r hr li hli i hi
    exact List.mem_append_left _ (claudeIssues_mem rows r li L hL hr hli i hi)
  · intro rows hurl
    obtain ⟨L, hL⟩ := codexIssues_ok rows hurl
    have hval : validate_codex_records rows =
        .ok { total_count := rows.length, enabled_count := none,
              issues := L, success := L.isEmpty } := by
      simp [validate_codex_records, hL]
    refine ⟨_, hval, rfl, ?_⟩
    intro r hr li hli i hi
    exact codexIssues_mem rows r li L hL hr hli i hi
  · intro rows
    refine ⟨_, rfl, rfl, ?_⟩
    intro r hr i hi
    exact List.mem_flatten.mpr ⟨_, List.mem_map_of_mem _ hr, hi⟩
  · intro rows
    refine ⟨_, rfl, rfl, ?_⟩
    intro r hr i hi
    exact List.mem_flatten.mpr ⟨_, List.mem_map_of_mem _ hr, hi⟩
  · intro rows
    refine ⟨_, rfl, rfl, ?_⟩
    intro r hr i hi
    exact List.mem_flatten.mpr ⟨_, List.mem_map_of_mem _ hr, hi⟩

/-- C5 witness: the provider checks complete on concrete single-record
collections whose urls are non-NULL. -/
theorem c5_amended_witness :
    (∃ rep, validate_claude_records [baseClaudeRow] = .ok rep ∧
       rep.success = rep.issues.isEmpty ∧
       ∀ r ∈ [baseClaudeRow], ∀ li, claudeRowIssues r = .ok li → ∀ i ∈ li, i ∈ rep.issues)
    ∧ (∃ rep, validate_codex_records [baseCodexRow] = .ok rep ∧
       rep.success = rep.issues.isEmpty ∧
       ∀ r ∈ [baseCodexRow], ∀ li, codexRowIssues r = .ok li → ∀ i ∈ li, i ∈ rep.issues) :=
  ⟨c5_amended.1 [baseClaudeRow] (by decide),
   c5_amended.2.1 [baseCodexRow] (by decide)⟩

/-! ## C6 — the aggregation fold -/

/-- A filter keeps the whole list exactly when every element passes. -/
theorem filter_length_eq_iff {α : Type} (p : α → Bool) (l : List α) :
    ((l.filter p).length = l.length) ↔ ∀ x ∈ l, p x = true := by
  induction l with
  | nil => simp
  | cons a l ih =>
    cases ha : p a with
    | true => simp [List.filter_cons, ha, ih]
    | false =>
      have hle : (l.filter p).length ≤ l.length := List.length_filter_le _ _
      simp [List.filter_cons, ha]
      omega

/-- C6: the overall flag is the conjunction of the schema flag and the
integrity flag (a pure fold over the sub-reports), and it is true exactly
when every table exists and every per-entity check succeeds; the source
performs no equivalence comparison, so the equivalence conjunct of the claim
is vacuous. -/
theorem c6_overall (d : Db) :
    ((run_full_validation d).1.overall_success =
      ((run_full_validation d).1.schema_success && (run_full_validation d).1.integrity_success))
    ∧ ((run_full_validation d).1.overall_success = true ↔
      ((∀ p ∈ (run_full_validation d).1.schema_results, p.2.table_exists = true) ∧
       (∀ p ∈ (run_full_validation d).1.integrity_results, integritySuccess p.2 = true))) := by
  constructor
  · rfl
  · have hs := filter_length_eq_iff (fun p => p.2.table_exists) (validate_table_schemas d).1
    have hi := filter_length_eq_iff (fun p => integritySuccess p.2) (validate_data_integrity d).1
    change (decide _ && decide _) = true ↔ _
    rw [Bool.and_eq_true, decide_eq_true_eq, decide_eq_true_eq]
    exact and_congr hs hi

/-! ## C7 — schema validation -/

/-- A small concrete store shaped like the one seeded by
`create_test_data.py`. -/
def sampleDb : Db :=
  { claude_schema := ["id", "name", "url", "token", "timeout", "auto_update", "type", "enabled",
      "opus_model", "sonnet_model", "haiku_model", "created_at", "updated_at"],
    codex_schema := ["id", "name", "url", "token", "type", "enabled", "created_at", "updated_at"],
    agent_schema := ["id", "name", "type", "text", "created_at", "updated_at"],
    mcp_schema := ["id", "name", "type", "timeout", "command", "args", "env",
      "created_at", "updated_at"],
    config_schema := ["id", "key", "value", "description", "category", "is_active",
      "created_at", "updated_at"],
    claude_providers := [baseClaudeRow],
    codex_providers := [baseCodexRow],
    agent_guides := [{ id := 1, name := some "Web开发助手",
                       description := some "这是一个专门用于Web开发的AI助手" }],
    mcp_servers := [{ id := 1, name := some "file-server", url := none,
                      command := some "python3",
                      args := some "[\"/path/to/file_server.py\"]",
                      enabled := some 1 }],
    common_configs := [{ id := 1, key := some "app_name",
                         value := some "AI Manager", type := none }] }

/-- C7: for each of the five entity tables, the schema pass reports existence,
column count, row count, and one missing-field issue per required field absent
from the schema; the report for a table depends only on that table's schema
and row count, so a mismatch elsewhere never prevents its validation. -/
theorem c7_schema (d : Db) (t : String) (ht : t ∈ tables) :
    ∃ r, (t, r) ∈ (validate_table_schemas d).1 ∧
      r.table_exists = decide (0 < (get_table_schema d t).length) ∧
      r.columns = (get_table_schema d t).length ∧
      r.row_count = get_table_row_count d t ∧
      r.issues = ((required_fields t).filter
        (fun f => ¬ (get_table_schema d t).contains f)).map Issue.missingField ∧
      ∀ d' : Db, get_table_schema d' t = get_table_schema d t →
        get_table_row_count d' t = get_table_row_count d t →
        (t, r) ∈ (validate_table_schemas d').1 := by
  refine ⟨validate_one_table d t, ?_, rfl, rfl, rfl, rfl, ?_⟩
  · exact List.mem_map_of_mem _ ht
  · intro d' hs hr
    have heq : validate_one_table d' t = validate_one_table d t := by
      unfold validate_one_table
      rw [hs, hr]
    rw [← heq]
    exact List.mem_map_of_mem _ ht

/-- C7 witness: the claude_providers table of a concrete store. -/
theorem c7_schema_witness :
    ∃ r, ("claude_providers", r) ∈ (validate_table_schemas sampleDb).1 ∧
      r.table_exists = decide (0 < (get_table_schema sampleDb "claude_providers").length) ∧
      r.columns = (get_table_schema sampleDb "claude_providers").length ∧
      r.row_count = get_table_row_count sampleDb "claude_providers" ∧
      r.issues = ((required_fields "claude_providers").filter
        (fun f => ¬ (get_table_schema sampleDb "claude_providers").contains f)).map
          Issue.missingField ∧
      ∀ d' : Db, get_table_schema d' "claude_providers" =
          get_table_schema sampleDb "claude_providers" →
        get_table_row_count d' "claude_providers" =
          get_table_row_count sampleDb "claude_providers" →
        ("claude_providers", r) ∈ (validate_table_schemas d').1 :=
  c7_schema sampleDb "claude_providers" (by decide)

/-! ## C8 — the timeout field is never range-checked -/

/-- C8 counterexample: a claude record with `timeout = -5` (not a positive
integer) and all checked fields valid produces no issue at all and
`success = true`, contradicting the claim that a non-positive timeout is
flagged. -/
theorem c8_counterexample :
    validate_claude_records [{ baseClaudeRow with timeout := some (-5) }] =
    .ok { total_count := 1, enabled_count := some 1, issues := [], success := true } := by
  rfl

/-- C8 (amended): the ClaudeProvider integrity check never inspects the
timeout column — its report is invariant under arbitrary replacement of every
record's timeout value — so a record with `timeout ≤ 0` yields no issue on
account of timeout. -/
theorem c8_timeout_never_checked (rows : List ClaudeRow) (f : ClaudeRow → Option Int) :
    validate_claude_records (rows.map (fun r => { r with timeout := f r })) =
      validate_claude_records rows := by
  have hrow : ∀ r : ClaudeRow,
      claudeRowIssues { r with timeout := f r } = claudeRowIssues r := fun _ => rfl
  have hen : ∀ r : ClaudeRow,
      ({ r with timeout := f r } : ClaudeRow).enabled = r.enabled := fun _ => rfl
  have hloop : ∀ rows0 : List ClaudeRow,
      claudeIssues (rows0.map (fun r => { r with timeout := f r })) = claudeIssues rows0 := by
    intro rows0
    induction rows0 with
    | nil => rfl
    | cons r rs ih => simp [claudeIssues, hrow, ih]
  have hec : ∀ rows0 : List ClaudeRow,
      enabledCount (rows0.map (fun r => { r with timeout := f r })) = enabledCount rows0 := by
    intro rows0
    unfold enabledCount
    induction rows0 with
    | nil => rfl
    | cons r rs ih =>
      simp only [List.map_cons, List.filter_cons, hen]
      cases h : (r.enabled == some 1) <;> simp [h, ih]
  simp only [validate_claude_records, hloop, hec, List.length_map]

/-! ## C9 — validation is a pure read -/

/-- C9: the full validation pass leaves the store unchanged — every operation
it issues is a read (`PRAGMA table_info`, `SELECT COUNT(*)`, `SELECT …`),
each embedded as a state-threading primitive, and their composition returns
the initial store. -/
theorem c9_pure_read (d : Db) : (run_full_validation d).2 = d := rfl

/-! ## C10 — truthiness skips the max_tokens / temperature range checks -/

/-- C10: the `max_tokens` and `temperature` range checks are guarded by
Python truthiness, so a NULL or zero value is skipped — no range issue is
emitted for such a record — and a collection whose record carries
`max_tokens = 0` (below the declared minimum 1) can still report
`success = true`. -/
theorem c10_zero_skipped :
    (∀ (r : ClaudeRow) (u : String), r.url = some u →
       (r.max_tokens = none ∨ r.max_tokens = some 0) →
       ∀ l, claudeRowIssues r = .ok l → Issue.maxTokensOutOfRange r.id ∉ l)
    ∧ (∀ (r : ClaudeRow) (u : String), r.url = some u →
       (r.temperature = none ∨ r.temperature = some 0) →
       ∀ l, claudeRowIssues r = .ok l → Issue.temperatureOutOfRange r.id ∉ l)
    ∧ (∀ r : ClaudeRow,
       (r.max_tokens = none ∨ r.max_tokens = some 0) →
       (r.temperature = none ∨ r.temperature = some 0) →
       pyStrBlank r.name = false → pyStrBlank r.url = false →
       (∃ u, r.url = some u ∧ pyStartsWithHttp u = true) →
       enabledValid r.enabled = true →
       validate_claude_records [r] =
         .ok { total_count := 1, enabled_count := some (enabledCount [r]),
               issues := [], success := true }) := by
  refine ⟨?_, ?_, ?_⟩
  · intro r u hu hmt l hl hmem
    simp only [claudeRowIssues, hu, Except.ok.injEq] at hl
    rw [← hl] at hmem
    simp only [List.mem_append] at hmem
    rcases hmem with ((((h1 | h2) | h3) | h4) | h5) | h6
    · exact absurd (mem_if_singleton h1) (by simp)
    · exact absurd (mem_if_singleton h2) (by simp)
    · exact absurd (mem_if_singleton h3) (by simp)
    · exact absurd (mem_if_singleton h4) (by simp)
    · rcases hmt with hmt | hmt <;> simp only [hmt] at h5 <;> simp at h5
    · rcases hte : r.temperature with _ | t
      · simp only [hte] at h6
        simp at h6
      · simp only [hte] at h6
        exact absurd (mem_if_singleton h6) (by simp)
  · intro r u hu hte l hl hmem
    simp only [claudeRowIssues, hu, Except.ok.injEq] at hl
    rw [← hl] at hmem
    simp only [List.mem_append] at hmem
    rcases hmem with ((((h1 | h2) | h3) | h4) | h5) | h6
    · exact absurd (mem_if_singleton h1) (by simp)
    · exact absurd (mem_if_singleton h2) (by simp)
    · exact absurd (mem_if_singleton h3) (by simp)
    · exact absurd (mem_if_singleton h4) (by simp)
    · rcases hmt : r.max_tokens with _ | mt
      · simp only [hmt] at h5
        simp at h5
      · simp only [hmt] at h5
        exact absurd (mem_if_singleton h5) (by simp)
    · rcases hte with hte | hte <;> simp only [hte] at h6 <;> simp at h6
  · intro r hmt hte hname hub hfmt hen
    obtain ⟨u, hu, hfmt⟩ := hfmt
    rw [hu] at hub
    have hrow : claudeRowIssues r = .ok [] := by
      simp only [claudeRowIssues, hu]
      rcases hmt with hmt | hmt <;> rcases hte with hte | hte <;>
        simp [hname, hub, hfmt, hen, hmt, hte]
    have hloop : claudeIssues [r] = .ok [] := by simp [claudeIssues, hrow]
    have hecle : ¬ (enabledCount [r] > 1) := by
      unfold enabledCount
      cases h : (r.enabled == some 1) <;> simp [List.filter_cons, h]
    simp [validate_claude_records, hloop, hecle]

/-- C10 witness: a record with `max_tokens = 0` and `temperature = 0` gets no
range issue (here next to an unrelated empty-name issue), and the clean
variant of the record yields a fully successful report. -/
theorem c10_zero_skipped_witness :
    (Issue.maxTokensOutOfRange 1 ∉ [Issue.emptyName 1])
    ∧ (Issue.temperatureOutOfRange 1 ∉ [Issue.emptyName 1])
    ∧ validate_claude_records
        [{ baseClaudeRow with max_tokens := some 0, temperature := some 0 }] =
      .ok { total_count := 1, enabled_count := some 1, issues := [], success := true } :=
  ⟨c10_zero_skipped.1
     { baseClaudeRow with max_tokens := some 0, temperature := some 0, name := some "" }
     "https://api.anthropic.com" rfl (Or.inr rfl) [Issue.emptyName 1] rfl,
   c10_zero_skipped.2.1
     { baseClaudeRow with max_tokens := some 0, temperature := some 0, name := some "" }
     "https://api.anthropic.com" rfl (Or.inr rfl) [Issue.emptyName 1] rfl,
   c10_zero_skipped.2.2
     { baseClaudeRow with max_tokens := some 0, temperature := some 0 }
     (Or.inr rfl) (Or.inr rfl) (by decide) (by decide)
     ⟨"https://api.anthropic.com", rfl, by decide⟩ (by decide)⟩

end AiManager
